import Mathlib

/-!
Verification of the BMAD v6.3 Tool Invocation Core.

The repository's installer (`upgrade-bmad-v6.3.mjs`) writes the runtime
sources as string literals; the code under verification is the content of
`.bmad-core/runtime/tool-runtime.ts` (resolveTool, isAllowed, executeTool)
and `.bmad-core/utils/mcp-client.ts` (connectMCP), lines 83-190 of the
installer file.

The embedding is shallow: filesystem reads and the three transports are an
explicit environment record, effects are an explicit trace of adapter
events, and the websocket handler logic of connectMCP is a function of the
ordered list of socket events.
-/

namespace BMad

/-- An entry of an agent's `tools.allowed` list.  The source accepts either
a bare identifier string or an object carrying an `id` field
(`agent.tools?.allowed?.map(t => (t.id || t))`, tool-runtime.ts line 113 of
the installer). -/
inductive Entry where
  | bare (s : String)
  | ref (id : String)
deriving DecidableEq, Repr

/-- Value of a normalized allowed entry as JavaScript computes it.
`t.id || t` returns the string `t.id` when it is truthy; when `t` is an
object whose `id` is falsy (the empty string in this model) the object
itself is kept, and an object never compares equal to a string under
`Array.prototype.includes`, hence the separate `obj` constructor. -/
inductive NormVal where
  | str (s : String)
  | obj (id : String)
deriving DecidableEq, Repr

/-- `t.id || t` from tool-runtime.ts line 113: a bare string has no `id`
property (undefined, falsy) so the string itself is kept; an object yields
its `id` field unless that field is falsy, in which case the object is
kept. -/
def normEntry : Entry → NormVal
  | .bare s => .str s
  | .ref i => if i = "" then .obj i else .str i

/-- The `tools` section of an agent profile (`allowed` may be absent). -/
structure AgentTools where
  allowed : Option (List Entry)
deriving DecidableEq, Repr

/-- An agent profile: an identifier and an optional `tools` section. -/
structure Agent where
  id : String
  tools : Option AgentTools
deriving DecidableEq, Repr

/-- The `tool:` map of a parsed tool definition; every field the runtime
dereferences is optional, as YAML maps give `undefined` for missing keys. -/
structure ToolInner where
  id : Option String
  type : Option String
  entrypoint : Option String
  mcpServer : Option String
deriving DecidableEq, Repr

/-- A parsed tool definition document; the `tool` map itself can be absent
(the runtime reads it through `tool.tool?.id` and `tool.tool.type`). -/
structure ToolDef where
  tool : Option ToolInner
deriving DecidableEq, Repr

/-- An entry `{id, file}` of the registry index (`reg.registry`). -/
structure RegEntry where
  id : String
  file : String
deriving DecidableEq, Repr

/-- The filesystem state `resolveTool` reads: existence and listing of the
tool-definitions directory `TOOL_DIR` with the parse of each file in it,
and existence and content of the registry `REGISTRY_PATH` together with
existence and parse of the files its entries reference. -/
structure FS where
  toolDirExists : Bool
  toolDirFiles : List String
  parseDirFile : String → ToolDef
  registryExists : Bool
  registryList : Option (List RegEntry)
  fileExists : String → Bool
  parseFile : String → ToolDef

/-- The distinct error kinds the runtime throws, one constructor per
`throw new Error(...)` site plus the implicit TypeError raised by
`tool.tool.type` when the `tool` map is absent. -/
inductive ToolErr where
  | notFound (toolId : String)
  | accessDenied (agentId toolId : String)
  | executionError (toolId : String) (status : Nat)
  | unknownType (t : Option String)
  | typeErr
deriving DecidableEq, Repr

/-- Decidable equality of `Except` values, so that concrete runs of the
embedded operations can be checked by evaluation. -/
instance {ε α : Type} [DecidableEq ε] [DecidableEq α] :
    DecidableEq (Except ε α)
  | .error e, .error f =>
    if h : e = f then .isTrue (h ▸ rfl)
    else .isFalse (fun hc => h (Except.error.inj hc))
  | .error _, .ok _ => .isFalse Except.noConfusion
  | .ok _, .error _ => .isFalse Except.noConfusion
  | .ok a, .ok b =>
    if h : a = b then .isTrue (h ▸ rfl)
    else .isFalse (fun hc => h (Except.ok.inj hc))

/-- JavaScript `f.startsWith(pre)`: the character sequence of `pre` is a
prefix of that of `f`. -/
def strStartsWith (f pre : String) : Bool :=
  pre.data.isPrefixOf f.data

/-- The directory scan of `resolveTool` (installer lines 98-102): when
`TOOL_DIR` exists, the first file of its listing whose name starts with
`toolId`. -/
def dirHit (fs : FS) (toolId : String) : Option String :=
  if fs.toolDirExists then
    fs.toolDirFiles.find? (fun f => strStartsWith f toolId)
  else none

/-- The registry lookup of `resolveTool` (installer lines 103-107): when
the registry file exists and has a `registry` list, the first entry whose
`id` equals `toolId`. -/
def regHit (fs : FS) (toolId : String) : Option RegEntry :=
  if fs.registryExists then
    match fs.registryList with
    | some l => l.find? (fun e => e.id = toolId)
    | none => none
  else none

/-- `resolveTool` (tool-runtime.ts, installer lines 97-109): scan
`TOOL_DIR` for the first file whose name starts with `toolId` and parse
it; otherwise look up the first registry entry whose `id` equals `toolId`
and, if its referenced file exists, parse that; otherwise throw
`Tool not found`. -/
def resolveTool (fs : FS) (toolId : String) : Except ToolErr ToolDef :=
  match dirHit fs toolId with
  | some f => .ok (fs.parseDirFile f)
  | none =>
    match regHit fs toolId with
    | some e => if fs.fileExists e.file then .ok (fs.parseFile e.file)
                else .error (.notFound toolId)
    | none => .error (.notFound toolId)

/-- The agent's `tools.allowed` entries, defaulting to the empty list when
`tools` or `allowed` is absent (the `|| []` of line 113). -/
def rawAllowed (a : Agent) : List Entry :=
  match a.tools with
  | none => []
  | some ts =>
    match ts.allowed with
    | none => []
    | some l => l

/-- The agent's normalized allowed list
(`agent.tools?.allowed?.map(t => (t.id || t)) || []`). -/
def allowedNorm (a : Agent) : List NormVal :=
  (rawAllowed a).map normEntry

/-- The identifier field of an allowed entry: its `id` field if it is an
object, else the entry itself.  This is the specification's normalization
of the allowed set, used to state the access-control claims; it differs
from the source's `t.id || t` only on an object whose `id` field is
falsy. -/
def entryId : Entry → String
  | .bare s => s
  | .ref i => i

/-- The specification-side allowed set of an agent: each entry reduced to
its identifier. -/
def allowedIds (a : Agent) : List String :=
  (rawAllowed a).map entryId

/-- One comparison of `allowed.includes(tool.tool?.id)`: the tool's id
(possibly undefined) against one normalized entry.  An object entry or an
undefined id never matches. -/
def idMatches (tid : Option String) : NormVal → Bool
  | .str s => tid = some s
  | .obj _ => false

/-- `isAllowed` (tool-runtime.ts, installer lines 111-115): the
orchestrator id is allowed unconditionally; otherwise the tool's declared
id must be included in the agent's normalized allowed list. -/
def isAllowed (a : Agent) (t : ToolDef) : Bool :=
  if a.id = "bmad-orchestrator" then true
  else (allowedNorm a).any (idMatches (t.tool.bind ToolInner.id))

/-- One observable transport-adapter action of `executeTool`: a dynamic
module import (local), an HTTP POST (remote), or a connection opened by
`connectMCP` (mcp, recording server and namespace). -/
inductive AdapterEvent where
  | localImport (entrypoint : Option String)
  | httpPost (url : Option String) (payload : String)
  | mcpConnect (server : Option String) (ns : Option String)
deriving DecidableEq, Repr

/-- The environment of `executeTool`: the filesystem plus the result each
transport would deliver (the local module's `run`, the HTTP status and
body, and the value an MCP call resolves with on the happy path). -/
structure Env where
  fs : FS
  localRun : Option String → String → String
  http : Option String → String → Nat × String
  mcp : Option String → Option String → String → String → String

/-- `executeTool` (tool-runtime.ts, installer lines 117-143): resolve,
check access, then dispatch on `tool.tool.type`; returns the result or
error together with the trace of adapter events performed.  Denial and
resolution failure happen before any dispatch, so their trace is empty.
A `remote` response with non-2xx status (`!res.ok`) raises an execution
error carrying the status.  An `mcp` tool connects to `tool.tool.mcpServer`
with `tool.tool.entrypoint` as namespace and calls with the original
`toolId`. -/
def executeTool (env : Env) (agent : Agent) (toolId payload : String) :
    Except ToolErr String × List AdapterEvent :=
  match resolveTool env.fs toolId with
  | .error e => (.error e, [])
  | .ok tool =>
    if isAllowed agent tool then
      match tool.tool with
      | none => (.error .typeErr, [])
      | some ti =>
        match ti.type with
        | some "local" =>
          (.ok (env.localRun ti.entrypoint payload), [.localImport ti.entrypoint])
        | some "remote" =>
          let r := env.http ti.entrypoint payload
          if 200 ≤ r.1 ∧ r.1 < 300 then
            (.ok r.2, [.httpPost ti.entrypoint payload])
          else
            (.error (.executionError toolId r.1), [.httpPost ti.entrypoint payload])
        | some "mcp" =>
          (.ok (env.mcp ti.mcpServer ti.entrypoint toolId payload),
           [.mcpConnect ti.mcpServer ti.entrypoint])
        | t => (.error (.unknownType t), [])
    else
      (.error (.accessDenied agent.id toolId), [])

/-- Number of MCP connections opened in a trace. -/
def connectCount (tr : List AdapterEvent) : Nat :=
  (tr.filter (fun e => match e with | .mcpConnect _ _ => true | _ => false)).length

/-! ## MCP session layer (mcp-client.ts, installer lines 163-190)

`connectMCP` wraps a fresh websocket in a promise: the `open` handler
sends the auth message (when a token is configured) and resolves with a
client object; the `error` handler rejects the same promise.  The client's
`call` sends one invoke message and registers `ws.once("message", ...)`,
resolving with the next incoming message's decoded body.  We model the
socket as the ordered list of events it fires and compute the fate of one
`connectMCP` followed by one `call`. -/

/-- An event fired by the websocket, in order. -/
inductive SockEvent where
  | opened
  | errored
  | message (data : String)
deriving DecidableEq, Repr

/-- An outbound message sent on the socket: `{action: "auth", token}` or
`{action: "invoke", namespace, toolId, payload}`.  The invoke message
carries exactly these three data fields; there is no correlation
identifier field. -/
inductive Msg where
  | auth (token : String)
  | invoke (ns toolId payload : String)
deriving DecidableEq, Repr

def Msg.isInvoke : Msg → Bool
  | .invoke _ _ _ => true
  | .auth _ => false

/-- How the connectMCP promise settles, given the socket's events: the
first `opened` event resolves it (later handler firings hit a settled
promise and are no-ops); an `errored` event before any `opened` rejects
it; `message` events have no listener before `call` runs and are dropped. -/
inductive ConnRes where
  | rejected
  | neverSettled
deriving DecidableEq, Repr

/-- Scan the socket events for the settlement of the connectMCP promise;
on resolution, return the events remaining after the `opened` event. -/
def afterOpen : List SockEvent → Except ConnRes (List SockEvent)
  | [] => .error .neverSettled
  | .opened :: rest => .ok rest
  | .errored :: _ => .error .rejected
  | .message _ :: rest => afterOpen rest

/-- The body of the first `message` event in a list, if any: what the
single `ws.once("message", ...)` listener registered by `call` receives. -/
def firstMessage : List SockEvent → Option String
  | [] => none
  | .message d :: _ => some d
  | _ :: rest => firstMessage rest

/-- Fate of the caller's promise for one `executeTool`-style MCP use:
`connectRejected`/`connectPending` when connectMCP itself rejects or never
settles (so `call` is never reached); `resolved d` when the next incoming
message after the invoke carries `d`; `pending` when no further message
arrives — nothing else settles the call's promise, which has no reject
path. -/
inductive CallOutcome where
  | resolved (data : String)
  | pending
  | connectRejected
  | connectPending
deriving DecidableEq, Repr

/-- Result of running `await connectMCP(server, ns)` then one
`client.call(toolId, payload)` against a socket firing `events`: the
outcome of the caller's promise and the ordered list of messages sent. -/
structure McpRun where
  outcome : CallOutcome
  sent : List Msg
deriving DecidableEq, Repr

/-- `connectMCP` followed by one `call` (installer lines 170-189).
`token` is the result of the credential-store lookup
`auth?.[server]?.token || null` of line 168, which already normalizes a
missing or falsy configured value to null (`none` here), so the `if
(token)` guard of line 173 is exactly `token.isSome`.  On `open`: when a
token is configured it is sent first, fire-and-forget; the promise then
resolves and `call` sends the invoke message and waits for the next
incoming message.  A socket error before `open` rejects the connect
promise; a socket error afterwards reaches only the already-settled
connect promise's `reject` and never settles the call, which stays
pending unless a message arrives. -/
def mcpInvoke (token : Option String) (events : List SockEvent)
    (ns toolId payload : String) : McpRun :=
  match afterOpen events with
  | .error .rejected => ⟨.connectRejected, []⟩
  | .error .neverSettled => ⟨.connectPending, []⟩
  | .ok rest =>
    let pre : List Msg := match token with | some t => [.auth t] | none => []
    match firstMessage rest with
    | some d => ⟨.resolved d, pre ++ [.invoke ns toolId payload]⟩
    | none => ⟨.pending, pre ++ [.invoke ns toolId payload]⟩

/-! ## Concrete test fixtures -/

/-- A tool definition of type `mcp`, declared id `t1`, namespace `nsA`,
server `wss://s`. -/
def mcpTool : ToolDef := ⟨some ⟨some "t1", some "mcp", some "nsA", some "wss://s"⟩⟩

/-- A filesystem whose tool directory holds exactly `t1.md`, parsing to
`mcpTool`; no registry. -/
def fs3 : FS := ⟨true, ["t1.md"], fun _ => mcpTool, false, none, fun _ => false, fun _ => ⟨none⟩⟩

/-- Environment over `fs3` whose MCP transport answers `"ok"`. -/
def env3 : Env := ⟨fs3, fun _ _ => "ran", fun _ _ => (200, "body"), fun _ _ _ _ => "ok"⟩

/-- A non-orchestrator agent allowed exactly the tool `t1`. -/
def agent3 : Agent := ⟨"dev", some ⟨some [.bare "t1"]⟩⟩

/-- A non-orchestrator agent allowed exactly the tool `other`. -/
def agentOther : Agent := ⟨"dev", some ⟨some [.bare "other"]⟩⟩

/-- A tool definition of type `local`, declared id `hello-world`. -/
def helloTool : ToolDef :=
  ⟨some ⟨some "hello-world", some "local", some "./hello.js", none⟩⟩

/-- A filesystem whose tool directory holds exactly `hello-world.md`,
parsing to `helloTool`; no registry. -/
def fs9 : FS :=
  ⟨true, ["hello-world.md"], fun _ => helloTool, false, none, fun _ => false, fun _ => ⟨none⟩⟩

/-- Environment over `fs9` whose local transport answers `"ran"`. -/
def env9 : Env := ⟨fs9, fun _ _ => "ran", fun _ _ => (200, "body"), fun _ _ _ _ => "ok"⟩

/-- A non-orchestrator agent allowed exactly the tool `hello-world`. -/
def agent9 : Agent := ⟨"dev", some ⟨some [.bare "hello-world"]⟩⟩

/-- A tool definition of type `remote`, declared id `r1`, entrypoint
`http://e`. -/
def remoteTool : ToolDef := ⟨some ⟨some "r1", some "remote", some "http://e", none⟩⟩

/-- A filesystem whose tool directory holds exactly `r1.md`, parsing to
`remoteTool`; no registry. -/
def fs6 : FS :=
  ⟨true, ["r1.md"], fun _ => remoteTool, false, none, fun _ => false, fun _ => ⟨none⟩⟩

/-- Environment over `fs6` whose HTTP transport answers status 500. -/
def env6 : Env := ⟨fs6, fun _ _ => "ran", fun _ _ => (500, "boom"), fun _ _ _ _ => "ok"⟩

/-- A non-orchestrator agent allowed exactly the tool `r1`. -/
def agent6 : Agent := ⟨"dev", some ⟨some [.bare "r1"]⟩⟩

/-! ## Helper lemmas -/

/-- When the source's normalization of an entry yields a string, it is the
entry's identifier field. -/
lemma entryId_of_normEntry_str {e : Entry} {i : String}
    (h : normEntry e = .str i) : entryId e = i := by
  cases e with
  | bare s => simpa [normEntry, entryId] using h
  | ref j =>
    by_cases hj : j = ""
    all_goals simp [normEntry, hj, entryId] at h ⊢
    exact h

/-- For a non-orchestrator agent, a successful `includes` check exhibits
the tool's declared id as a member of the specification-side allowed
set. -/
lemma isAllowed_true_mem {a : Agent} {t : ToolDef}
    (horch : a.id ≠ "bmad-orchestrator") (h : isAllowed a t = true) :
    ∃ i, t.tool.bind ToolInner.id = some i ∧ i ∈ allowedIds a := by
  simp only [isAllowed, if_neg horch, List.any_eq_true] at h
  obtain ⟨v, hv, hmatch⟩ := h
  cases v with
  | obj j => simp [idMatches] at hmatch
  | str s =>
    simp only [idMatches, decide_eq_true_eq] at hmatch
    refine ⟨s, hmatch, ?_⟩
    simp only [allowedNorm, List.mem_map] at hv
    obtain ⟨e, he, hne⟩ := hv
    simp only [allowedIds, List.mem_map]
    exact ⟨e, he, entryId_of_normEntry_str hne⟩

/-! ## Claim theorems -/

/-- Claim C1: for every agent whose id is not the orchestrator identifier
and every resolved tool whose declared id is not in the agent's normalized
allowed set, `executeTool` fails with the access-denied error carrying the
agent id and the requested tool id, and performs no adapter action at all
(empty trace: no local import, no HTTP request, no MCP connection). -/
theorem executeTool_access_denied_no_dispatch (env : Env) (agent : Agent)
    (toolId payload : String) (t : ToolDef)
    (hres : resolveTool env.fs toolId = .ok t)
    (horch : agent.id ≠ "bmad-orchestrator")
    (hid : ∀ i, t.tool.bind ToolInner.id = some i → i ∉ allowedIds agent) :
    executeTool env agent toolId payload =
      (.error (.accessDenied agent.id toolId), []) := by
  have hfalse : isAllowed agent t = false := by
    cases h : isAllowed agent t
    · rfl
    · obtain ⟨i, hi, hmem⟩ := isAllowed_true_mem horch h
      exact absurd hmem (hid i hi)
  simp [executeTool, hres, hfalse]

/-- Witness for C1: agent `dev` allowed only `other` is denied tool `t1`
with no adapter event. -/
theorem executeTool_access_denied_no_dispatch_witness :
    executeTool env3 agentOther "t1" "p" =
      (.error (.accessDenied "dev" "t1"), []) := by
  have h := executeTool_access_denied_no_dispatch env3 agentOther "t1" "p" mcpTool
    (by decide) (by decide) (by intro i hi; simp [mcpTool] at hi; subst hi; decide)
  simpa [agentOther] using h

/-- Claim C2: an agent whose id is the distinguished orchestrator
identifier `bmad-orchestrator` passes `isAllowed` for every tool,
regardless of its `tools.allowed` contents or absence. -/
theorem isAllowed_orchestrator (a : Agent) (t : ToolDef)
    (h : a.id = "bmad-orchestrator") : isAllowed a t = true := by
  simp [isAllowed, h]

/-- Witness for C2: the orchestrator agent with no `tools` section at all
is allowed an empty tool definition. -/
theorem isAllowed_orchestrator_witness :
    isAllowed ⟨"bmad-orchestrator", none⟩ ⟨none⟩ = true :=
  isAllowed_orchestrator ⟨"bmad-orchestrator", none⟩ ⟨none⟩ rfl

/-- Claim C10: `isAllowed` is total on malformed profiles: a
non-orchestrator agent whose profile lacks a `tools` section or an
`allowed` list is denied every tool (the allowed set defaults to empty)
rather than raising an error. -/
theorem isAllowed_malformed_profile_denied (a : Agent) (t : ToolDef)
    (horch : a.id ≠ "bmad-orchestrator")
    (h : a.tools = none ∨ ∃ ts, a.tools = some ts ∧ ts.allowed = none) :
    isAllowed a t = false := by
  rcases h with h | ⟨ts, hts, hal⟩
  · simp [isAllowed, horch, allowedNorm, rawAllowed, h]
  · simp [isAllowed, horch, allowedNorm, rawAllowed, hts, hal]

/-- Witness for C10: agent `dev` with no `tools` section is denied the
empty tool. -/
theorem isAllowed_malformed_profile_denied_witness :
    isAllowed ⟨"dev", none⟩ ⟨none⟩ = false :=
  isAllowed_malformed_profile_denied ⟨"dev", none⟩ ⟨none⟩ (by decide) (Or.inl rfl)

/-- Claim C5: `resolveTool` first scans the tool-definitions directory and
returns the parse of the first file whose name starts with `toolId`; only
when the scan yields nothing does it consult the registry, returning the
parse of the file referenced by the entry whose id equals `toolId` when
that file exists; it fails with the not-found error exactly when neither
source yields a match. -/
theorem resolveTool_resolution_order (fs : FS) (toolId : String) :
    (∀ f, dirHit fs toolId = some f →
       resolveTool fs toolId = .ok (fs.parseDirFile f)) ∧
    (dirHit fs toolId = none → ∀ e, regHit fs toolId = some e →
       (fs.fileExists e.file = true →
          resolveTool fs toolId = .ok (fs.parseFile e.file)) ∧
       (fs.fileExists e.file = false →
          resolveTool fs toolId = .error (.notFound toolId))) ∧
    (resolveTool fs toolId = .error (.notFound toolId) ↔
       dirHit fs toolId = none ∧
         (regHit fs toolId = none ∨
          ∃ e, regHit fs toolId = some e ∧ fs.fileExists e.file = false)) := by
  refine ⟨fun f hf => by simp [resolveTool, hf], ?_, ?_⟩
  · intro hd e he
    constructor <;> intro hfile <;> simp [resolveTool, hd, he, hfile]
  · constructor
    · intro h
      cases hd : dirHit fs toolId with
      | some f => simp [resolveTool, hd] at h
      | none =>
        refine ⟨rfl, ?_⟩
        cases hr : regHit fs toolId with
        | none => exact Or.inl rfl
        | some e =>
          refine Or.inr ⟨e, rfl, ?_⟩
          cases hfile : fs.fileExists e.file
          · rfl
          · simp [resolveTool, hd, hr, hfile] at h
    · rintro ⟨hd, hr | ⟨e, he, hfile⟩⟩
      · simp [resolveTool, hd, hr]
      · simp [resolveTool, hd, he, hfile]

/-- Witness for C5: on the concrete filesystem `fs3`, the directory scan
hits `t1.md` and resolution returns its parse. -/
theorem resolveTool_resolution_order_witness :
    resolveTool fs3 "t1" = .ok mcpTool :=
  (resolveTool_resolution_order fs3 "t1").1 "t1.md" (by decide)

/-- Claim C6: for a resolved, allowed tool of type `remote`, `executeTool`
POSTs the payload to the tool's entrypoint; a non-2xx HTTP status yields
the execution error carrying that status, and a 2xx status yields the
decoded response body. -/
theorem executeTool_remote_status (env : Env) (agent : Agent)
    (toolId payload : String) (t : ToolDef) (ti : ToolInner)
    (hres : resolveTool env.fs toolId = .ok t)
    (hal : isAllowed agent t = true)
    (ht : t.tool = some ti) (hty : ti.type = some "remote") :
    executeTool env agent toolId payload =
      ((if 200 ≤ (env.http ti.entrypoint payload).1 ∧
           (env.http ti.entrypoint payload).1 < 300
        then .ok (env.http ti.entrypoint payload).2
        else .error (.executionError toolId (env.http ti.entrypoint payload).1)),
       [.httpPost ti.entrypoint payload]) := by
  simp only [executeTool, hres, hal, if_true, ht, hty]
  split <;> simp

/-- Witness for C6: against the stub endpoint of `env6` answering status
500, execution of tool `r1` fails with the execution error carrying
status 500. -/
theorem executeTool_remote_status_witness :
    executeTool env6 agent6 "r1" "p" =
      (.error (.executionError "r1" 500), [.httpPost (some "http://e") "p"]) := by
  have h := executeTool_remote_status env6 agent6 "r1" "p" remoteTool
    ⟨some "r1", some "remote", some "http://e", none⟩ (by decide) (by decide)
    (by decide) rfl
  simpa [env6] using h

/-- Claim C9: the access check of `executeTool` is made against the
resolved definition's declared id, not the caller's `toolId` string:
calling with `hello`, a strict prefix of the filename `hello-world.md`
whose definition's declared id `hello-world` is in the agent's allowed
set, succeeds (the local adapter runs) even though `hello` itself is not
in the allowed set. -/
theorem executeTool_checks_declared_id :
    executeTool env9 agent9 "hello" "p" =
      (.ok "ran", [.localImport (some "./hello.js")]) ∧
    "hello" ∉ allowedIds agent9 ∧
    strStartsWith "hello-world.md" "hello" = true ∧
    "hello" ≠ "hello-world.md" := by
  refine ⟨by decide, by decide, by decide, by decide⟩

/-- Counterexample to C3 as stated: two `executeTool` calls targeting the
same MCP server open two connections, not one — `connectMCP` holds no
process-wide session state and authenticates a fresh socket on every
call. -/
theorem mcp_two_calls_two_connections :
    connectCount ((executeTool env3 agent3 "t1" "p").2 ++
                  (executeTool env3 agent3 "t1" "p").2) = 2 ∧
    connectCount ((executeTool env3 agent3 "t1" "p").2 ++
                  (executeTool env3 agent3 "t1" "p").2) ≠ 1 := by
  refine ⟨by decide, by decide⟩

/-- Claim C3 as amended: there is no session reuse — every `executeTool`
call on a resolved, allowed tool of type `mcp` opens exactly one fresh
connection to the tool's server, so two calls to the same server open two
connections. -/
theorem executeTool_mcp_fresh_connection (env : Env) (agent : Agent)
    (toolId payload : String) (t : ToolDef) (ti : ToolInner)
    (hres : resolveTool env.fs toolId = .ok t)
    (hal : isAllowed agent t = true)
    (ht : t.tool = some ti) (hty : ti.type = some "mcp") :
    (executeTool env agent toolId payload).2 =
      [.mcpConnect ti.mcpServer ti.entrypoint] ∧
    connectCount ((executeTool env agent toolId payload).2 ++
                  (executeTool env agent toolId payload).2) = 2 := by
  have h2 : (executeTool env agent toolId payload).2 =
      [.mcpConnect ti.mcpServer ti.entrypoint] := by
    simp only [executeTool, hres, hal, if_true, ht, hty]
  exact ⟨h2, by simp [h2, connectCount]⟩

/-- Witness for amended C3: the concrete MCP tool `t1` of `env3` opens one
connection per call, two across two calls. -/
theorem executeTool_mcp_fresh_connection_witness :
    (executeTool env3 agent3 "t1" "p").2 =
      [.mcpConnect (some "wss://s") (some "nsA")] ∧
    connectCount ((executeTool env3 agent3 "t1" "p").2 ++
                  (executeTool env3 agent3 "t1" "p").2) = 2 :=
  executeTool_mcp_fresh_connection env3 agent3 "t1" "p" mcpTool
    ⟨some "t1", some "mcp", some "nsA", some "wss://s"⟩ (by decide) (by decide)
    (by decide) rfl

/-- Counterexample to C4 as stated: with the socket firing `open` and then
`error`, the invoke message has been sent but the call's promise is left
pending forever — it is not rejected (with a transport error or anything
else); only the already-settled connect promise's reject handler sees the
error. -/
theorem mcp_socket_error_call_pending :
    mcpInvoke none [SockEvent.opened, SockEvent.errored] "nsA" "t1" "p" =
      ⟨CallOutcome.pending, [Msg.invoke "nsA" "t1" "p"]⟩ := by
  decide

/-- Claim C4 as amended: a socket error before the connection opens rejects
the `connectMCP` promise (so the caller settles with that rejection), but a
socket error after the invoke has been sent does not settle the call's
pending result — with no further incoming message the call stays pending
forever. -/
theorem mcp_socket_error_behavior (token : Option String)
    (rest evs : List SockEvent) (ns tid p : String)
    (hnomsg : firstMessage rest = none) :
    (mcpInvoke token (SockEvent.opened :: rest) ns tid p).outcome =
      CallOutcome.pending ∧
    mcpInvoke token (SockEvent.errored :: evs) ns tid p =
      ⟨CallOutcome.connectRejected, []⟩ := by
  constructor
  · cases token <;> simp [mcpInvoke, afterOpen, hnomsg]
  · simp [mcpInvoke, afterOpen]

/-- Witness for amended C4: socket trace `open, error` leaves the call
pending; socket trace `error` rejects the connection. -/
theorem mcp_socket_error_behavior_witness :
    (mcpInvoke none [SockEvent.opened, SockEvent.errored] "n" "t" "p").outcome =
      CallOutcome.pending ∧
    mcpInvoke none [SockEvent.errored] "n" "t" "p" =
      ⟨CallOutcome.connectRejected, []⟩ :=
  mcp_socket_error_behavior none [SockEvent.errored] [] "n" "t" "p" rfl

/-- Claim C7: each MCP call sends exactly one invoke message, carrying
precisely the namespace, tool id and payload (the `Msg.invoke` constructor
has no correlation-identifier field), and its outcome is determined by the
next incoming socket message alone: the call resolves with the first
message body arriving after the invoke, whatever it is, and stays pending
when none arrives — no matching of responses by id takes place. -/
theorem mcp_call_one_invoke_next_message (token : Option String)
    (rest : List SockEvent) (ns tid p : String) :
    (mcpInvoke token (SockEvent.opened :: rest) ns tid p).sent.filter
        Msg.isInvoke = [Msg.invoke ns tid p] ∧
    (mcpInvoke token (SockEvent.opened :: rest) ns tid p).outcome =
      (match firstMessage rest with
       | some d => CallOutcome.resolved d
       | none => CallOutcome.pending) := by
  cases token <;> cases h : firstMessage rest <;>
    simp [mcpInvoke, afterOpen, h, Msg.isInvoke]

/-- Claim C8: on a connection whose server has a configured token, the
authentication message is sent first — every message list a run can send
is either empty (connection never opened) or starts with `Msg.auth` and
only then carries the invoke; no acknowledgment is awaited, as the invoke
is sent regardless of any inbound traffic after `open`. -/
theorem mcp_auth_before_invoke (tok : String) (events : List SockEvent)
    (ns tid p : String) :
    (mcpInvoke (some tok) events ns tid p).sent = [] ∨
    (mcpInvoke (some tok) events ns tid p).sent =
      [Msg.auth tok, Msg.invoke ns tid p] := by
  cases h : afterOpen events with
  | error e => cases e <;> simp [mcpInvoke, h]
  | ok rest => cases h2 : firstMessage rest <;> simp [mcpInvoke, h, h2]

end BMad
